import Mathlib

/-!
Shallow embedding of `core_logic.py` from the Walmart-EcoPack-AI repository.

Tables (`PRODUCTS_DF`, `MATERIALS_DF`) are lists of records; numeric columns
are rationals; pandas `iloc[0]` on a filtered frame is `List.head?` of the
corresponding filtered list (so a lookup that would raise on an empty frame
becomes `Option`).  `Series.max()` / `.min()` / `.sum()` on a non-empty
series are `qMax` / `qMin` / `List.sum` over the mapped column.
`DataFrame.sort_values(..., ascending=False)` is modelled as a stable
descending sort (`List.insertionSort` with the reversed relation); the
properties proved below about the recommender depend only on the result
being a descending-sorted permutation of its input.
-/

namespace EcoPack

/-- A row of `data/products.csv` (columns used by `core_logic.py`). -/
structure Product where
  product_id : String
  pname : String
  length_cm : ℚ
  width_cm : ℚ
  height_cm : ℚ
  weight_kg : ℚ
  fragility_score : ℚ
  current_packaging_material : String
deriving DecidableEq, Repr

/-- A row of `data/packaging_materials.csv` (columns used by `core_logic.py`). -/
structure Material where
  material_id : String
  mname : String
  strength_rating : ℚ
  recycled_content_percent : ℚ
  recyclability_score : ℚ
  biodegradability_score : ℚ
  carbon_footprint_per_unit_sqm : ℚ
  cost_per_unit_area : ℚ
deriving DecidableEq, Repr

/-- `pandas.Series.max()` on a list of rationals (the empty case, which pandas
maps to NaN, is given the junk value 0 and is never used in a proof). -/
def qMax : List ℚ → ℚ
  | [] => 0
  | x :: xs => xs.foldl max x

/-- `pandas.Series.min()` on a list of rationals (same convention as `qMax`). -/
def qMin : List ℚ → ℚ
  | [] => 0
  | x :: xs => xs.foldl min x

/-- `get_product_data`: `PRODUCTS_DF[PRODUCTS_DF['product_id'] == product_id].iloc[0]`,
with the raising `iloc[0]` rendered as `Option`. -/
def get_product_data (products : List Product) (product_id : String) : Option Product :=
  (products.filter (fun p => decide (p.product_id = product_id))).head?

/-- `MATERIALS_DF[MATERIALS_DF['material_id'] == mid].iloc[0]` as an `Option`. -/
def lookupMaterial (materials : List Material) (mid : String) : Option Material :=
  (materials.filter (fun m => decide (m.material_id = mid))).head?

/-- `calculate_optimal_single_box`: adds `buffer_cm` to each dimension and
multiplies the buffered dimensions for the volume. -/
def calculate_optimal_single_box (length width height : ℚ) (buffer_cm : ℚ := 1) :
    ℚ × ℚ × ℚ × ℚ :=
  let optimal_length := length + buffer_cm
  let optimal_width := width + buffer_cm
  let optimal_height := height + buffer_cm
  let optimal_volume := optimal_length * optimal_width * optimal_height
  (optimal_length, optimal_width, optimal_height, optimal_volume)

/-- `PRODUCTS_DF[PRODUCTS_DF['product_id'].isin(product_ids)]`. -/
def selectedProducts (products : List Product) (product_ids : List String) : List Product :=
  products.filter (fun p => decide (p.product_id ∈ product_ids))

/-- `calculate_approximate_multi_box`: zero box for an empty selection, else
(max length, max width, sum of heights), each plus the fixed buffer 2. -/
def calculate_approximate_multi_box (products : List Product) (product_ids : List String) :
    ℚ × ℚ × ℚ × ℚ :=
  let selected := selectedProducts products product_ids
  if selected.isEmpty then (0, 0, 0, 0)
  else
    let max_l := qMax (selected.map (·.length_cm))
    let max_w := qMax (selected.map (·.width_cm))
    let sum_h := (selected.map (·.height_cm)).sum
    let buffer_cm_multi : ℚ := 2
    let optimal_length := max_l + buffer_cm_multi
    let optimal_width := max_w + buffer_cm_multi
    let optimal_height := sum_h + buffer_cm_multi
    (optimal_length, optimal_width, optimal_height,
      optimal_length * optimal_width * optimal_height)

/-- `MATERIALS_DF[MATERIALS_DF['strength_rating'] >= product_fragility]`. -/
def suitableMaterials (materials : List Material) (product_fragility : ℚ) : List Material :=
  materials.filter (fun m => decide (m.strength_rating ≥ product_fragility))

/-- The column assignment of lines 63–68: the composite sustainability score.
The carbon normalization denominator is
`MATERIALS_DF['carbon_footprint_per_unit_sqm'].max()`, i.e. the maximum over
the whole table, not over the suitable subset. -/
def sustainability_score (materials : List Material) (m : Material) : ℚ :=
  m.recycled_content_percent * 0.005 +
  m.recyclability_score * 0.1 +
  m.biodegradability_score * 0.05 +
  (1 - m.carbon_footprint_per_unit_sqm /
      qMax (materials.map (·.carbon_footprint_per_unit_sqm))) * 0.2

/-- `suitable_materials.sort_values(by='sustainability_score', ascending=False)`. -/
def sortedSuitable (materials : List Material) (product_fragility : ℚ) : List Material :=
  List.insertionSort
    (fun a b => sustainability_score materials b ≤ sustainability_score materials a)
    (suitableMaterials materials product_fragility)

/-- `suitable_materials['cost_per_unit_area'].min()` (taken, as in the source,
after the sort — the value is the same for any permutation). -/
def lowestSuitableCost (materials : List Material) (product_fragility : ℚ) : ℚ :=
  qMin ((sortedSuitable materials product_fragility).map (·.cost_per_unit_area))

/-- The affordability filter of lines 76–78. -/
def affordableMaterials (materials : List Material) (product_fragility cost_tolerance_factor : ℚ) :
    List Material :=
  (sortedSuitable materials product_fragility).filter
    (fun m => decide (m.cost_per_unit_area ≤
      lowestSuitableCost materials product_fragility * cost_tolerance_factor))

/-- `recommend_sustainable_material`: `None` when the suitability filter is
empty; otherwise the top row of the affordability-filtered sorted frame, or,
when that filter is empty, the top row of the sorted suitable frame. -/
def recommend_sustainable_material (materials : List Material)
    (product_fragility cost_tolerance_factor : ℚ) : Option Material :=
  if (suitableMaterials materials product_fragility).isEmpty then none
  else if (affordableMaterials materials product_fragility cost_tolerance_factor).isEmpty then
    (sortedSuitable materials product_fragility).head?
  else
    (affordableMaterials materials product_fragility cost_tolerance_factor).head?

/-- The result record of the two mock "current packaging" functions. -/
structure MockPackaging where
  mlength : ℚ
  mwidth : ℚ
  mheight : ℚ
  mvolume : ℚ
  material : Material
deriving DecidableEq, Repr

/-- `get_mock_current_packaging`: each product dimension times 1.2, volume the
product of the inflated dimensions, material looked up from the product's
`current_packaging_material` column.  Both raising `iloc[0]` lookups become
`Option` binds. -/
def get_mock_current_packaging (products : List Product) (materials : List Material)
    (product_id : String) : Option MockPackaging :=
  match get_product_data products product_id with
  | none => none
  | some product =>
    let current_l := product.length_cm * 1.2
    let current_w := product.width_cm * 1.2
    let current_h := product.height_cm * 1.2
    let current_vol := current_l * current_w * current_h
    match lookupMaterial materials product.current_packaging_material with
    | none => none
    | some current_material =>
      some ⟨current_l, current_w, current_h, current_vol, current_material⟩

/-- `get_mock_current_multi_packaging`: zero box with the standard-cardboard
material for an empty selection, else (max length, max width, sum of heights)
each times 1.5, always with the standard-cardboard material. -/
def get_mock_current_multi_packaging (products : List Product) (materials : List Material)
    (product_ids : List String) : Option MockPackaging :=
  let selected := selectedProducts products product_ids
  if selected.isEmpty then
    (lookupMaterial materials "cardboard_standard").map (fun m => ⟨0, 0, 0, 0, m⟩)
  else
    let max_l := qMax (selected.map (·.length_cm))
    let max_w := qMax (selected.map (·.width_cm))
    let sum_h := (selected.map (·.height_cm)).sum
    let current_l := max_l * 1.5
    let current_w := max_w * 1.5
    let current_h := sum_h * 1.5
    let current_vol := current_l * current_w * current_h
    (lookupMaterial materials "cardboard_standard").map
      (fun m => ⟨current_l, current_w, current_h, current_vol, m⟩)

/-! ### Concrete fixture rows, in the shape of the CSV reference data -/

/-- A cheap, low-sustainability material (strength 5, carbon 1, cost 1). -/
def mA : Material := ⟨"m1", "Material A", 5, 0, 1, 1, 1, 1⟩

/-- A costlier, high-sustainability material (strength 5, carbon 0, cost 2). -/
def mB : Material := ⟨"m2", "Material B", 5, 100, 5, 5, 0, 2⟩

/-- A row with the default id used by `get_mock_current_multi_packaging`. -/
def mStd : Material := ⟨"cardboard_standard", "Standard Cardboard", 3, 20, 4, 2, 1, 1⟩

def exMaterials : List Material := [mA, mB]

def exMaterials2 : List Material := [mA, mB, mStd]

def pX : Product := ⟨"p1", "Product X", 10, 10, 10, 1, 3, "m1"⟩

def pY : Product := ⟨"p2", "Product Y", 4, 6, 8, 2, 2, "m2"⟩

def exProducts : List Product := [pX, pY]

/-! ### Helper lemmas about `qMax`, `qMin` and the recommender pipeline -/

lemma foldl_max_mem (x : ℚ) (xs : List ℚ) : xs.foldl max x ∈ x :: xs := by
  induction xs generalizing x with
  | nil => simp
  | cons y ys ih =>
    have h := ih (max x y)
    simp only [List.foldl_cons]
    rcases List.mem_cons.1 h with h' | h'
    · rw [h']
      rcases max_choice x y with h'' | h'' <;> rw [h''] <;> simp
    · exact List.mem_cons_of_mem _ (List.mem_cons_of_mem _ h')

lemma init_le_foldl_max (x : ℚ) (xs : List ℚ) : x ≤ xs.foldl max x := by
  induction xs generalizing x with
  | nil => exact le_refl x
  | cons y ys ih => exact le_trans (le_max_left x y) (ih (max x y))

lemma le_foldl_max {a : ℚ} {x : ℚ} {xs : List ℚ} (h : a ∈ x :: xs) : a ≤ xs.foldl max x := by
  induction xs generalizing x with
  | nil => simp at h; simp [h]
  | cons y ys ih =>
    simp only [List.foldl_cons]
    rcases List.mem_cons.1 h with rfl | h'
    · exact le_trans (le_max_left a y) (init_le_foldl_max _ ys)
    · rcases List.mem_cons.1 h' with rfl | h''
      · exact le_trans (le_max_right x a) (init_le_foldl_max _ ys)
      · exact ih (List.mem_cons_of_mem _ h'')

lemma foldl_min_mem (x : ℚ) (xs : List ℚ) : xs.foldl min x ∈ x :: xs := by
  induction xs generalizing x with
  | nil => simp
  | cons y ys ih =>
    have h := ih (min x y)
    simp only [List.foldl_cons]
    rcases List.mem_cons.1 h with h' | h'
    · rw [h']
      rcases min_choice x y with h'' | h'' <;> rw [h''] <;> simp
    · exact List.mem_cons_of_mem _ (List.mem_cons_of_mem _ h')

lemma foldl_min_le_init (x : ℚ) (xs : List ℚ) : xs.foldl min x ≤ x := by
  induction xs generalizing x with
  | nil => exact le_refl x
  | cons y ys ih => exact le_trans (ih (min x y)) (min_le_left x y)

lemma foldl_min_le {a : ℚ} {x : ℚ} {xs : List ℚ} (h : a ∈ x :: xs) : xs.foldl min x ≤ a := by
  induction xs generalizing x with
  | nil => simp at h; simp [h]
  | cons y ys ih =>
    simp only [List.foldl_cons]
    rcases List.mem_cons.1 h with rfl | h'
    · exact le_trans (foldl_min_le_init _ ys) (min_le_left a y)
    · rcases List.mem_cons.1 h' with rfl | h''
      · exact le_trans (foldl_min_le_init _ ys) (min_le_right x a)
      · exact ih (List.mem_cons_of_mem _ h'')

lemma qMax_mem {l : List ℚ} (h : l ≠ []) : qMax l ∈ l := by
  cases l with
  | nil => exact absurd rfl h
  | cons x xs => exact foldl_max_mem x xs

lemma le_qMax {a : ℚ} {l : List ℚ} (h : a ∈ l) : a ≤ qMax l := by
  cases l with
  | nil => simp at h
  | cons x xs => exact le_foldl_max h

lemma qMin_mem {l : List ℚ} (h : l ≠ []) : qMin l ∈ l := by
  cases l with
  | nil => exact absurd rfl h
  | cons x xs => exact foldl_min_mem x xs

lemma qMin_le {a : ℚ} {l : List ℚ} (h : a ∈ l) : qMin l ≤ a := by
  cases l with
  | nil => simp at h
  | cons x xs => exact foldl_min_le h

lemma qMin_perm {l₁ l₂ : List ℚ} (h : l₁.Perm l₂) : qMin l₁ = qMin l₂ := by
  rcases eq_or_ne l₁ [] with rfl | h₁
  · obtain rfl := h.nil_eq
    rfl
  · have h₂ : l₂ ≠ [] := by
      intro hn
      subst hn
      exact h₁ h.eq_nil
    exact le_antisymm (qMin_le (h.symm.subset (qMin_mem h₂)))
      (qMin_le (h.subset (qMin_mem h₁)))

lemma mem_suitableMaterials {materials : List Material} {f : ℚ} {m : Material} :
    m ∈ suitableMaterials materials f ↔ m ∈ materials ∧ f ≤ m.strength_rating := by
  simp [suitableMaterials, List.mem_filter, ge_iff_le]

lemma sortedSuitable_perm (materials : List Material) (f : ℚ) :
    (sortedSuitable materials f).Perm (suitableMaterials materials f) :=
  List.perm_insertionSort _ _

lemma mem_sortedSuitable {materials : List Material} {f : ℚ} {m : Material} :
    m ∈ sortedSuitable materials f ↔ m ∈ suitableMaterials materials f :=
  (sortedSuitable_perm materials f).mem_iff

lemma sortedSuitable_pairwise (materials : List Material) (f : ℚ) :
    (sortedSuitable materials f).Pairwise
      (fun a b => sustainability_score materials b ≤ sustainability_score materials a) := by
  haveI : IsTotal Material
      (fun a b => sustainability_score materials b ≤ sustainability_score materials a) :=
    ⟨fun a b => le_total _ _⟩
  haveI : IsTrans Material
      (fun a b => sustainability_score materials b ≤ sustainability_score materials a) :=
    ⟨fun _ _ _ hab hbc => le_trans hbc hab⟩
  exact List.sorted_insertionSort _ _

/-- In a list that is pairwise descending under a score, the head bounds the
score of every member. -/
lemma head_score_max {s : Material → ℚ} {l : List Material}
    (hs : l.Pairwise (fun a b => s b ≤ s a)) {x : Material} (hx : x ∈ l)
    {y : Material} (hy : l.head? = some y) : s x ≤ s y := by
  cases l with
  | nil => simp at hx
  | cons a tl =>
    have hya : y = a := by simpa using hy.symm
    subst hya
    rcases List.mem_cons.1 hx with rfl | h
    · exact le_refl _
    · exact (List.pairwise_cons.1 hs).1 x h

lemma lowestSuitableCost_eq (materials : List Material) (f : ℚ) :
    lowestSuitableCost materials f =
      qMin ((suitableMaterials materials f).map (·.cost_per_unit_area)) :=
  qMin_perm ((sortedSuitable_perm materials f).map _)

lemma mem_affordableMaterials {materials : List Material} {f t : ℚ} {m : Material} :
    m ∈ affordableMaterials materials f t ↔
      m ∈ suitableMaterials materials f ∧
        m.cost_per_unit_area ≤
          qMin ((suitableMaterials materials f).map (·.cost_per_unit_area)) * t := by
  rw [affordableMaterials, List.mem_filter, ← lowestSuitableCost_eq]
  simp [mem_sortedSuitable]

lemma affordableMaterials_pairwise (materials : List Material) (f t : ℚ) :
    (affordableMaterials materials f t).Pairwise
      (fun a b => sustainability_score materials b ≤ sustainability_score materials a) :=
  List.Sorted.filter _ (sortedSuitable_pairwise materials f)

lemma exists_head?_eq {α : Type _} {l : List α} (h : l ≠ []) : ∃ a, l.head? = some a := by
  cases l with
  | nil => exact absurd rfl h
  | cons a tl => exact ⟨a, rfl⟩

lemma head?_mem {α : Type _} {l : List α} {a : α} (h : l.head? = some a) : a ∈ l := by
  cases l with
  | nil => simp at h
  | cons x xs =>
    have : a = x := by simpa using h.symm
    subst this
    exact List.mem_cons_self _ _

lemma recommend_eq_of_affordable_ne_nil {materials : List Material} {f t : ℚ}
    (hs : suitableMaterials materials f ≠ [])
    (ha : affordableMaterials materials f t ≠ []) :
    recommend_sustainable_material materials f t = (affordableMaterials materials f t).head? := by
  rw [recommend_sustainable_material, if_neg (by simpa [List.isEmpty_iff] using hs),
    if_neg (by simpa [List.isEmpty_iff] using ha)]

lemma recommend_eq_of_affordable_eq_nil {materials : List Material} {f t : ℚ}
    (hs : suitableMaterials materials f ≠ [])
    (ha : affordableMaterials materials f t = []) :
    recommend_sustainable_material materials f t = (sortedSuitable materials f).head? := by
  rw [recommend_sustainable_material, if_neg (by simpa [List.isEmpty_iff] using hs),
    if_pos (by simpa [List.isEmpty_iff] using ha)]

lemma sortedSuitable_ne_nil {materials : List Material} {f : ℚ}
    (hs : suitableMaterials materials f ≠ []) : sortedSuitable materials f ≠ [] := by
  intro hn
  apply hs
  have hp := sortedSuitable_perm materials f
  rw [hn] at hp
  exact hp.nil_eq.symm

lemma head_sorted_score_max {materials : List Material} {f : ℚ} {y : Material}
    (hy : (sortedSuitable materials f).head? = some y)
    {x : Material} (hx : x ∈ suitableMaterials materials f) :
    sustainability_score materials x ≤ sustainability_score materials y :=
  head_score_max (sortedSuitable_pairwise materials f) (mem_sortedSuitable.2 hx) hy

lemma head_affordable_score_max {materials : List Material} {f t : ℚ} {y : Material}
    (hy : (affordableMaterials materials f t).head? = some y)
    {x : Material} (hx : x ∈ affordableMaterials materials f t) :
    sustainability_score materials x ≤ sustainability_score materials y :=
  head_score_max (affordableMaterials_pairwise materials f t) hx hy

lemma lowestSuitableCost_nonneg {materials : List Material} {f : ℚ}
    (hcost : ∀ m ∈ materials, 0 ≤ m.cost_per_unit_area)
    (hne : suitableMaterials materials f ≠ []) :
    0 ≤ qMin ((suitableMaterials materials f).map (·.cost_per_unit_area)) := by
  have hmne : (suitableMaterials materials f).map (·.cost_per_unit_area) ≠ [] := by
    simpa using hne
  obtain ⟨m, hm, he⟩ := List.mem_map.1 (qMin_mem hmne)
  rw [← he]
  exact hcost m (mem_suitableMaterials.1 hm).1

/-- With non-negative costs and tolerance at least 1, the cheapest suitable
material passes the affordability filter. -/
lemma affordable_ne_nil_of_one_le {materials : List Material} {f t : ℚ}
    (hcost : ∀ m ∈ materials, 0 ≤ m.cost_per_unit_area)
    (hne : suitableMaterials materials f ≠ []) (ht : 1 ≤ t) :
    affordableMaterials materials f t ≠ [] := by
  have hmne : (suitableMaterials materials f).map (·.cost_per_unit_area) ≠ [] := by
    simpa using hne
  obtain ⟨m, hm, he⟩ := List.mem_map.1 (qMin_mem hmne)
  have h0 : 0 ≤ qMin ((suitableMaterials materials f).map (·.cost_per_unit_area)) :=
    lowestSuitableCost_nonneg hcost hne
  have hmem : m ∈ affordableMaterials materials f t :=
    mem_affordableMaterials.2 ⟨hm, by rw [he]; exact le_mul_of_one_le_right h0 ht⟩
  exact List.ne_nil_of_mem hmem

/-! ### Claim theorems -/

/-- C1: `recommend_sustainable_material` returns `none` if and only if no
material in the table has `strength_rating ≥ fragility`; in every other case
it returns a concrete material. -/
theorem recommend_none_iff_no_suitable (materials : List Material) (f t : ℚ) :
    recommend_sustainable_material materials f t = none ↔
      ∀ m ∈ materials, ¬ f ≤ m.strength_rating := by
  constructor
  · intro h
    intro m hm hf
    have hs : suitableMaterials materials f ≠ [] :=
      List.ne_nil_of_mem (mem_suitableMaterials.2 ⟨hm, hf⟩)
    rcases eq_or_ne (affordableMaterials materials f t) [] with ha | ha
    · rw [recommend_eq_of_affordable_eq_nil hs ha] at h
      have hne := sortedSuitable_ne_nil hs
      cases hl : sortedSuitable materials f with
      | nil => exact hne hl
      | cons a tl => rw [hl] at h; cases h
    · rw [recommend_eq_of_affordable_ne_nil hs ha] at h
      cases hl : affordableMaterials materials f t with
      | nil => exact ha hl
      | cons a tl => rw [hl] at h; cases h
  · intro h
    have hs : suitableMaterials materials f = [] := by
      rw [List.eq_nil_iff_forall_not_mem]
      intro m hm
      rw [mem_suitableMaterials] at hm
      exact h m hm.1 hm.2
    rw [recommend_sustainable_material, if_pos (by simp [hs])]

/-- C2: whenever `recommend_sustainable_material` returns a material, that
material's `strength_rating` is at least the given fragility value. -/
theorem recommend_strength_ge (materials : List Material) (f t : ℚ) (m : Material)
    (h : recommend_sustainable_material materials f t = some m) :
    f ≤ m.strength_rating := by
  have hm : m ∈ suitableMaterials materials f := by
    rcases eq_or_ne (suitableMaterials materials f) [] with hs | hs
    · rw [recommend_sustainable_material, if_pos (by simp [hs])] at h
      cases h
    · rcases eq_or_ne (affordableMaterials materials f t) [] with ha | ha
      · rw [recommend_eq_of_affordable_eq_nil hs ha] at h
        exact mem_sortedSuitable.1 (head?_mem h)
      · rw [recommend_eq_of_affordable_ne_nil hs ha] at h
        exact (mem_affordableMaterials.1 (head?_mem h)).1
  exact (mem_suitableMaterials.1 hm).2

/-- C2 witness at a concrete table. -/
theorem recommend_strength_ge_witness : (1 : ℚ) ≤ mA.strength_rating :=
  recommend_strength_ge exMaterials 1 1 mA (by
    norm_num [recommend_sustainable_material, suitableMaterials, affordableMaterials,
      sortedSuitable, lowestSuitableCost, sustainability_score, qMax, qMin,
      List.insertionSort, List.orderedInsert, mA, mB, exMaterials])

/-- C3: for positive dimensions and a non-negative buffer, the optimal single
box is exactly the buffered dimensions together with their product. -/
theorem optimal_single_box_spec (l w h b : ℚ)
    (hl : 0 < l) (hw : 0 < w) (hh : 0 < h) (hb : 0 ≤ b) :
    calculate_optimal_single_box l w h b =
      (l + b, w + b, h + b, (l + b) * (w + b) * (h + b)) := rfl

/-- C3 witness: the spec's own scenario (10,10,10) with buffer 1. -/
theorem optimal_single_box_spec_witness :
    calculate_optimal_single_box 10 10 10 1 = (11, 11, 11, 1331) := by
  rw [optimal_single_box_spec 10 10 10 1 (by norm_num) (by norm_num) (by norm_num) (by norm_num)]
  norm_num

/-- C4: for a selection resolving to at least one product row, the
approximate multi box is (max member length + 2, max member width + 2,
sum of member heights + 2) with volume the product of the three; for a
selection resolving to no rows it is exactly (0, 0, 0, 0). -/
theorem approximate_multi_box_spec (products : List Product) (ids : List String) :
    (selectedProducts products ids = [] →
      calculate_approximate_multi_box products ids = (0, 0, 0, 0)) ∧
    (selectedProducts products ids ≠ [] →
      ∃ pl ∈ selectedProducts products ids, ∃ pw ∈ selectedProducts products ids,
        (∀ q ∈ selectedProducts products ids, q.length_cm ≤ pl.length_cm) ∧
        (∀ q ∈ selectedProducts products ids, q.width_cm ≤ pw.width_cm) ∧
        calculate_approximate_multi_box products ids =
          (pl.length_cm + 2, pw.width_cm + 2,
            ((selectedProducts products ids).map (·.height_cm)).sum + 2,
            (pl.length_cm + 2) * (pw.width_cm + 2) *
              (((selectedProducts products ids).map (·.height_cm)).sum + 2))) := by
  constructor
  · intro h
    simp [calculate_approximate_multi_box, h]
  · intro h
    have hml : (selectedProducts products ids).map (·.length_cm) ≠ [] := by simpa using h
    have hmw : (selectedProducts products ids).map (·.width_cm) ≠ [] := by simpa using h
    obtain ⟨pl, hpl, hple⟩ := List.mem_map.1 (qMax_mem hml)
    obtain ⟨pw, hpw, hpwe⟩ := List.mem_map.1 (qMax_mem hmw)
    refine ⟨pl, hpl, pw, hpw, ?_, ?_, ?_⟩
    · intro q hq
      rw [hple]
      exact le_qMax (List.mem_map_of_mem _ hq)
    · intro q hq
      rw [hpwe]
      exact le_qMax (List.mem_map_of_mem _ hq)
    · rw [calculate_approximate_multi_box]
      simp only []
      rw [if_neg (by simpa [List.isEmpty_iff] using h), hple, hpwe]

/-- C4 witness: an empty selection and the two-product selection. -/
theorem approximate_multi_box_spec_witness :
    calculate_approximate_multi_box exProducts [] = (0, 0, 0, 0) ∧
    (∃ pl ∈ selectedProducts exProducts ["p1", "p2"],
      ∃ pw ∈ selectedProducts exProducts ["p1", "p2"],
        (∀ q ∈ selectedProducts exProducts ["p1", "p2"], q.length_cm ≤ pl.length_cm) ∧
        (∀ q ∈ selectedProducts exProducts ["p1", "p2"], q.width_cm ≤ pw.width_cm) ∧
        calculate_approximate_multi_box exProducts ["p1", "p2"] =
          (pl.length_cm + 2, pw.width_cm + 2,
            ((selectedProducts exProducts ["p1", "p2"]).map (·.height_cm)).sum + 2,
            (pl.length_cm + 2) * (pw.width_cm + 2) *
              (((selectedProducts exProducts ["p1", "p2"]).map (·.height_cm)).sum + 2))) :=
  ⟨(approximate_multi_box_spec exProducts []).1 (by decide),
   (approximate_multi_box_spec exProducts ["p1", "p2"]).2 (by decide)⟩

/-- C7: for every suitable material, the composite sustainability score is
`recycled_content_percent * 0.005 + recyclability_score * 0.1 +
biodegradability_score * 0.05 + (1 - carbon_footprint / M) * 0.2` where `M`
is the maximum carbon footprint over the entire material table. -/
theorem sustainability_score_whole_table_max (materials : List Material) (f : ℚ)
    (m : Material) (hm : m ∈ suitableMaterials materials f) :
    sustainability_score materials m =
      m.recycled_content_percent * 0.005 +
      m.recyclability_score * 0.1 +
      m.biodegradability_score * 0.05 +
      (1 - m.carbon_footprint_per_unit_sqm /
          qMax (materials.map (·.carbon_footprint_per_unit_sqm))) * 0.2 := rfl

/-- C7 witness at a concrete suitable material. -/
theorem sustainability_score_whole_table_max_witness :
    sustainability_score exMaterials mA =
      mA.recycled_content_percent * 0.005 +
      mA.recyclability_score * 0.1 +
      mA.biodegradability_score * 0.05 +
      (1 - mA.carbon_footprint_per_unit_sqm /
          qMax (exMaterials.map (·.carbon_footprint_per_unit_sqm))) * 0.2 :=
  sustainability_score_whole_table_max exMaterials 1 mA (by decide)

/-- C5 counterexample: with tolerances 1/2 ≤ 1, the recommender first falls
back to the top-scoring suitable material (mB) and then, at the wider
tolerance, returns the affordable but lower-scoring mA, so the returned
score strictly decreases as the tolerance grows. -/
theorem recommend_score_mono_counterexample :
    ((1 : ℚ) / 2 ≤ 1) ∧
    recommend_sustainable_material exMaterials 1 (1 / 2) = some mB ∧
    recommend_sustainable_material exMaterials 1 1 = some mA ∧
    sustainability_score exMaterials mA < sustainability_score exMaterials mB := by
  refine ⟨by norm_num, ?_, ?_, ?_⟩ <;>
    norm_num [recommend_sustainable_material, suitableMaterials, affordableMaterials,
      sortedSuitable, lowestSuitableCost, sustainability_score, qMax, qMin,
      List.insertionSort, List.orderedInsert, mA, mB, exMaterials]

/-- C5 (amended): for tolerances at least 1 (the range the application
exposes) and non-negative costs, increasing the tolerance never decreases
the sustainability score of the returned material. -/
theorem recommend_score_mono_of_tolerance_ge_one (materials : List Material)
    (f t₁ t₂ : ℚ) (hcost : ∀ m ∈ materials, 0 ≤ m.cost_per_unit_area)
    (hne : suitableMaterials materials f ≠ [])
    (h1 : 1 ≤ t₁) (h12 : t₁ ≤ t₂) (m₁ m₂ : Material)
    (e₁ : recommend_sustainable_material materials f t₁ = some m₁)
    (e₂ : recommend_sustainable_material materials f t₂ = some m₂) :
    sustainability_score materials m₁ ≤ sustainability_score materials m₂ := by
  have ha₁ := affordable_ne_nil_of_one_le hcost hne h1
  have ha₂ := affordable_ne_nil_of_one_le hcost hne (le_trans h1 h12)
  rw [recommend_eq_of_affordable_ne_nil hne ha₁] at e₁
  rw [recommend_eq_of_affordable_ne_nil hne ha₂] at e₂
  obtain ⟨hs₁, hc₁⟩ := mem_affordableMaterials.1 (head?_mem e₁)
  have h0 := lowestSuitableCost_nonneg hcost hne
  have hm₁ : m₁ ∈ affordableMaterials materials f t₂ :=
    mem_affordableMaterials.2 ⟨hs₁, le_trans hc₁ (mul_le_mul_of_nonneg_left h12 h0)⟩
  exact head_affordable_score_max e₂ hm₁

/-- C5 witness: at tolerances 1 ≤ 2 over the concrete table. -/
theorem recommend_score_mono_of_tolerance_ge_one_witness :
    sustainability_score exMaterials mA ≤ sustainability_score exMaterials mB :=
  recommend_score_mono_of_tolerance_ge_one exMaterials 1 1 2
    (by decide) (by decide) (by norm_num) (by norm_num) mA mB
    (by norm_num [recommend_sustainable_material, suitableMaterials, affordableMaterials,
      sortedSuitable, lowestSuitableCost, sustainability_score, qMax, qMin,
      List.insertionSort, List.orderedInsert, mA, mB, exMaterials])
    (by norm_num [recommend_sustainable_material, suitableMaterials, affordableMaterials,
      sortedSuitable, lowestSuitableCost, sustainability_score, qMax, qMin,
      List.insertionSort, List.orderedInsert, mA, mB, exMaterials])

/-- C8: given a non-empty suitable set, the affordability filter keeps exactly
the suitable materials with cost at most (minimum suitable cost) × tolerance;
if the filtered set is non-empty the recommender returns one of its
highest-scoring members, otherwise a highest-scoring suitable material. -/
theorem recommend_selection_spec (materials : List Material) (f t : ℚ)
    (hne : suitableMaterials materials f ≠ []) :
    (∀ m, m ∈ affordableMaterials materials f t ↔
        m ∈ suitableMaterials materials f ∧
          m.cost_per_unit_area ≤
            qMin ((suitableMaterials materials f).map (·.cost_per_unit_area)) * t) ∧
    (affordableMaterials materials f t ≠ [] →
      ∃ m, recommend_sustainable_material materials f t = some m ∧
        m ∈ affordableMaterials materials f t ∧
        ∀ a ∈ affordableMaterials materials f t,
          sustainability_score materials a ≤ sustainability_score materials m) ∧
    (affordableMaterials materials f t = [] →
      ∃ m, recommend_sustainable_material materials f t = some m ∧
        m ∈ suitableMaterials materials f ∧
        ∀ a ∈ suitableMaterials materials f,
          sustainability_score materials a ≤ sustainability_score materials m) := by
  refine ⟨fun m => mem_affordableMaterials, ?_, ?_⟩
  · intro ha
    obtain ⟨a, hh⟩ := exists_head?_eq ha
    refine ⟨a, ?_, head?_mem hh, fun b hb => head_affordable_score_max hh hb⟩
    rw [recommend_eq_of_affordable_ne_nil hne ha, hh]
  · intro ha
    obtain ⟨a, hh⟩ := exists_head?_eq (sortedSuitable_ne_nil hne)
    refine ⟨a, ?_, mem_sortedSuitable.1 (head?_mem hh),
      fun b hb => head_sorted_score_max hh hb⟩
    rw [recommend_eq_of_affordable_eq_nil hne ha, hh]

/-- C8 witness: the non-empty-affordable branch at the concrete table. -/
theorem recommend_selection_spec_witness :
    ∃ m, recommend_sustainable_material exMaterials 1 1 = some m ∧
      m ∈ affordableMaterials exMaterials 1 1 ∧
      ∀ a ∈ affordableMaterials exMaterials 1 1,
        sustainability_score exMaterials a ≤ sustainability_score exMaterials m :=
  (recommend_selection_spec exMaterials 1 1 (by decide)).2.1
    (by norm_num [recommend_sustainable_material, suitableMaterials, affordableMaterials,
      sortedSuitable, lowestSuitableCost, sustainability_score, qMax, qMin,
      List.insertionSort, List.orderedInsert, mA, mB, exMaterials])

/-- C10: with non-negative costs, a non-empty suitable set and tolerance at
least 1, the affordability filter is non-empty (the cheapest suitable
material passes it), so the fallback branch is unreachable and the function
returns a highest-scoring affordable material. -/
theorem affordable_nonempty_of_tolerance_ge_one (materials : List Material) (f t : ℚ)
    (hcost : ∀ m ∈ materials, 0 ≤ m.cost_per_unit_area)
    (hne : suitableMaterials materials f ≠ []) (ht : 1 ≤ t) :
    affordableMaterials materials f t ≠ [] ∧
      ∃ m, recommend_sustainable_material materials f t = some m ∧
        m ∈ affordableMaterials materials f t ∧
        ∀ a ∈ affordableMaterials materials f t,
          sustainability_score materials a ≤ sustainability_score materials m := by
  have ha := affordable_ne_nil_of_one_le hcost hne ht
  refine ⟨ha, ?_⟩
  obtain ⟨a, hh⟩ := exists_head?_eq ha
  exact ⟨a, by rw [recommend_eq_of_affordable_ne_nil hne ha, hh], head?_mem hh,
    fun b hb => head_affordable_score_max hh hb⟩

/-- C10 witness at the concrete table with tolerance 1. -/
theorem affordable_nonempty_of_tolerance_ge_one_witness :
    affordableMaterials exMaterials 1 1 ≠ [] ∧
      ∃ m, recommend_sustainable_material exMaterials 1 1 = some m ∧
        m ∈ affordableMaterials exMaterials 1 1 ∧
        ∀ a ∈ affordableMaterials exMaterials 1 1,
          sustainability_score exMaterials a ≤ sustainability_score exMaterials m :=
  affordable_nonempty_of_tolerance_ge_one exMaterials 1 1
    (by decide) (by decide) (by norm_num)

/-- C9: the baseline estimator multiplies each single-product dimension by
1.2 (no additive buffer), takes the volume as the product of the inflated
dimensions and looks the material up from the product's recorded
current-packaging material id; for a multi-item selection it takes (max
length, max width, sum of heights) each times 1.5 with the fixed default
"cardboard_standard" material, and an empty selection yields a zero box with
that default material. -/
theorem mock_current_packaging_spec (products : List Product) (materials : List Material)
    (pid : String) (ids : List String) (p : Product) (matP defMat : Material)
    (hp : get_product_data products pid = some p)
    (hmat : lookupMaterial materials p.current_packaging_material = some matP)
    (hdef : lookupMaterial materials "cardboard_standard" = some defMat) :
    get_mock_current_packaging products materials pid =
      some ⟨p.length_cm * 1.2, p.width_cm * 1.2, p.height_cm * 1.2,
        (p.length_cm * 1.2) * (p.width_cm * 1.2) * (p.height_cm * 1.2), matP⟩ ∧
    (selectedProducts products ids = [] →
      get_mock_current_multi_packaging products materials ids =
        some ⟨0, 0, 0, 0, defMat⟩) ∧
    (selectedProducts products ids ≠ [] →
      ∃ pl ∈ selectedProducts products ids, ∃ pw ∈ selectedProducts products ids,
        (∀ q ∈ selectedProducts products ids, q.length_cm ≤ pl.length_cm) ∧
        (∀ q ∈ selectedProducts products ids, q.width_cm ≤ pw.width_cm) ∧
        get_mock_current_multi_packaging products materials ids =
          some ⟨pl.length_cm * 1.5, pw.width_cm * 1.5,
            ((selectedProducts products ids).map (·.height_cm)).sum * 1.5,
            (pl.length_cm * 1.5) * (pw.width_cm * 1.5) *
              (((selectedProducts products ids).map (·.height_cm)).sum * 1.5),
            defMat⟩) := by
  refine ⟨?_, ?_, ?_⟩
  · simp only [get_mock_current_packaging, hp, hmat]
  · intro h
    simp [get_mock_current_multi_packaging, h, hdef]
  · intro h
    have hml : (selectedProducts products ids).map (·.length_cm) ≠ [] := by simpa using h
    have hmw : (selectedProducts products ids).map (·.width_cm) ≠ [] := by simpa using h
    obtain ⟨pl, hpl, hple⟩ := List.mem_map.1 (qMax_mem hml)
    obtain ⟨pw, hpw, hpwe⟩ := List.mem_map.1 (qMax_mem hmw)
    refine ⟨pl, hpl, pw, hpw, ?_, ?_, ?_⟩
    · intro q hq
      rw [hple]
      exact le_qMax (List.mem_map_of_mem _ hq)
    · intro q hq
      rw [hpwe]
      exact le_qMax (List.mem_map_of_mem _ hq)
    · rw [get_mock_current_multi_packaging]
      simp only []
      rw [if_neg (by simpa [List.isEmpty_iff] using h), hdef, hple, hpwe]
      rfl

/-- C9 witness: product "p1" with its recorded material, and the empty
multi-item selection with the default material. -/
theorem mock_current_packaging_spec_witness :
    get_mock_current_packaging exProducts exMaterials2 "p1" =
      some ⟨pX.length_cm * 1.2, pX.width_cm * 1.2, pX.height_cm * 1.2,
        (pX.length_cm * 1.2) * (pX.width_cm * 1.2) * (pX.height_cm * 1.2), mA⟩ ∧
    get_mock_current_multi_packaging exProducts exMaterials2 [] =
      some ⟨0, 0, 0, 0, mStd⟩ :=
  have hall := mock_current_packaging_spec exProducts exMaterials2 "p1" [] pX mA mStd
    (by decide) (by decide) (by decide)
  ⟨hall.1, hall.2.1 (by decide)⟩

end EcoPack
